import Mathlib

/-!
# goblog: routing, middleware and the article form

A shallow embedding of `main.go`: the validation and the two branches of
`articlesStoreHandler`, the two middlewares, the route table registered in
`main`, and the parts of the Go standard library and of `gorilla/mux` the
program calls (`utf8.RuneCountInString`, `strings.TrimSuffix`, `fmt`,
`mux.Router`).

Go strings are byte sequences, so `len` is a byte count while
`utf8.RuneCountInString` counts runes.
-/

set_option autoImplicit false

namespace GoBlog

/-! ## Go strings -/

/-- A Go `string`: an immutable sequence of bytes. -/
abbrev GoString := List (Fin 256)

/-- The byte with value `n` (taken modulo 256). -/
def byte (n : Nat) : Fin 256 := ⟨n % 256, Nat.mod_lt n (by decide)⟩

/-- UTF-8 encoding of one code point, as the Go compiler stores the runes of a
string literal. -/
def encodeRune (c : Char) : GoString :=
  let n := c.toNat
  if n < 0x80 then [byte n]
  else if n < 0x800 then [byte (0xC0 + n / 64), byte (0x80 + n % 64)]
  else if n < 0x10000 then
    [byte (0xE0 + n / 4096), byte (0x80 + n / 64 % 64), byte (0x80 + n % 64)]
  else
    [byte (0xF0 + n / 262144), byte (0x80 + n / 4096 % 64),
     byte (0x80 + n / 64 % 64), byte (0x80 + n % 64)]

/-- Bytes of a chain of runes. -/
def encodeRunes : List Char → GoString
  | [] => []
  | c :: cs => encodeRune c ++ encodeRunes cs

/-- The Go string denoted by a string literal of the (UTF-8) source file. -/
def utf8 (s : String) : GoString := encodeRunes s.data

/-- Go `len(s)`: the number of bytes. -/
def len (s : GoString) : Nat := s.length

/-! ## `unicode/utf8` -/

/-- The table `first` of `unicode/utf8` together with `acceptRanges`: for a lead
byte of a multi-byte encoding, the size of the encoding and the range allowed
for the second byte; `none` for the bytes marked invalid (`xx`). -/
def firstByte (c : Fin 256) : Option (Nat × Nat × Nat) :=
  let v := c.val
  if 0xC2 ≤ v ∧ v ≤ 0xDF then some (2, 0x80, 0xBF)
  else if v = 0xE0 then some (3, 0xA0, 0xBF)
  else if 0xE1 ≤ v ∧ v ≤ 0xEC then some (3, 0x80, 0xBF)
  else if v = 0xED then some (3, 0x80, 0x9F)
  else if 0xEE ≤ v ∧ v ≤ 0xEF then some (3, 0x80, 0xBF)
  else if v = 0xF0 then some (4, 0x90, 0xBF)
  else if 0xF1 ≤ v ∧ v ≤ 0xF3 then some (4, 0x80, 0xBF)
  else if v = 0xF4 then some (4, 0x80, 0x8F)
  else none

/-- Whether `rest[i]` exists and lies in `[lo, hi]`. -/
def byteIn (rest : GoString) (i lo hi : Nat) : Bool :=
  match rest.get? i with
  | some b => decide (lo ≤ b.val ∧ b.val ≤ hi)
  | none => false

/-- The number of bytes one iteration of the loop of `utf8.RuneCountInString`
advances when the byte at the current index is `c` and `rest` follows it:
1 for ASCII, for an invalid lead byte and for a short or ill-formed encoding,
else the size of the encoding. -/
def runeWidth (c : Fin 256) (rest : GoString) : Nat :=
  if c.val < 0x80 then 1
  else
    match firstByte c with
    | none => 1
    | some (size, lo, hi) =>
      if rest.length + 1 < size then 1
      else if !byteIn rest 0 lo hi then 1
      else if size = 2 then 2
      else if !byteIn rest 1 0x80 0xBF then 1
      else if size = 3 then 3
      else if !byteIn rest 2 0x80 0xBF then 1
      else 4

/-- The loop of `utf8.RuneCountInString` from a position that is `skip` bytes
before the start of the next rune: every rune start adds one to the count and
skips the rest of its encoding. -/
def runeCountFrom : Nat → GoString → Nat
  | _, [] => 0
  | 0, c :: rest => runeCountFrom (runeWidth c rest - 1) rest + 1
  | k + 1, _ :: rest => runeCountFrom k rest

/-- Go `utf8.RuneCountInString(s)`. -/
def RuneCountInString (s : GoString) : Nat := runeCountFrom 0 s

/-! ## `map[string]string` -/

/-- A Go `map[string]string` as an association list with distinct keys. -/
abbrev StringMap := List (GoString × GoString)

/-- Go `m[k] = v`. -/
def StringMap.set (m : StringMap) (k v : GoString) : StringMap :=
  if m.any (fun e => e.1 == k) then m.map (fun e => if e.1 == k then (k, v) else e)
  else m ++ [(k, v)]

/-- Go `v, ok := m[k]`. -/
def StringMap.get? (m : StringMap) (k : GoString) : Option GoString :=
  (m.find? (fun e => e.1 == k)).map Prod.snd

/-- Go `m[k]`: the zero value `""` when the key is absent. -/
def StringMap.get (m : StringMap) (k : GoString) : GoString :=
  (m.get? k).getD []

/-! ## Validation (lines 50-62 of `articlesStoreHandler`) -/

/-- The title rule, lines 52-56: the change it makes to the `errors` map. -/
def validateTitle (title : GoString) (errors : StringMap) : StringMap :=
  if title = [] then
    errors.set (utf8 "title") (utf8 "标题不能为空")
  else if RuneCountInString title < 3 ∨ RuneCountInString title > 40 then
    errors.set (utf8 "title") (utf8 "标题长度需介于 3-40")
  else errors

/-- The body rule, lines 58-62: the change it makes to the `errors` map. -/
def validateBody (body : GoString) (errors : StringMap) : StringMap :=
  if body = [] then
    errors.set (utf8 "body") (utf8 "内容不能为空")
  else if RuneCountInString body < 10 then
    errors.set (utf8 "body") (utf8 "内容长度需大于或等于10个字节")
  else errors

/-- The `errors` map that `articlesStoreHandler` has built when it reaches
line 64. -/
def validate (title body : GoString) : StringMap :=
  validateBody body (validateTitle title [])

/-! ## `net/http`: requests and response writers -/

/-- Go `*url.URL`, of which the program only uses the path. -/
structure URL where
  Path : GoString
  deriving DecidableEq, Repr

/-- Go `(*url.URL).String()` for a URL that has only a path, none of whose bytes
needs escaping (every path of the route table is of this kind). -/
def URL.String (u : URL) : GoString := u.Path

/-- The struct `ArticlesFormData`; `URL` is a pointer that may be nil. -/
structure ArticlesFormData where
  Title : GoString
  Body : GoString
  URL : Option URL
  Errors : StringMap
  deriving DecidableEq, Repr

/-- One write to the response body: literal bytes, or the output of executing
the `html/template` named `name` with source `src` on `data` (the template
engine itself is outside the model, the call is recorded). -/
inductive Chunk where
  | text (s : GoString)
  | template (name src : GoString) (data : ArticlesFormData)
  deriving DecidableEq, Repr

/-- The state of an `http.ResponseWriter`: the header map, the status code once
the header has been written, and the writes to the body in order. -/
structure ResponseWriter where
  header : StringMap
  status : Option Nat
  body : List Chunk
  deriving DecidableEq, Repr

/-- Go `w.Header().Set(k, v)`. -/
def ResponseWriter.setHeader (w : ResponseWriter) (k v : GoString) : ResponseWriter :=
  { w with header := w.header.set k v }

/-- Go `w.WriteHeader(code)`: the first call fixes the status. -/
def ResponseWriter.WriteHeader (w : ResponseWriter) (code : Nat) : ResponseWriter :=
  { w with status := some (w.status.getD code) }

/-- Go `w.Write`: writes the header with status 200 when it has not been
written, then appends to the body. -/
def ResponseWriter.write (w : ResponseWriter) (c : Chunk) : ResponseWriter :=
  { w with status := some (w.status.getD 200), body := w.body ++ [c] }

/-- Go `fmt.Fprint(w, s)` for a string operand. -/
def Fprint (w : ResponseWriter) (s : GoString) : ResponseWriter := w.write (.text s)

/-- The text chunks of a body joined, `none` when a template was executed. -/
def bodyText : List Chunk → Option GoString
  | [] => some []
  | .text s :: cs => (bodyText cs).map (s ++ ·)
  | .template _ _ _ :: _ => none

/-- The part of `*http.Request` the program reads: method, `r.URL.Path`, the
parsed form of the request body and the variables `mux` attached. -/
structure Request where
  Method : GoString
  Path : GoString
  PostForm : StringMap
  Vars : StringMap
  deriving DecidableEq, Repr

/-- Go `r.PostFormValue(key)`: the first value of the key, `""` without one. -/
def Request.PostFormValue (r : Request) (key : GoString) : GoString := r.PostForm.get key

/-- How a call of a handler ends: it returns, leaving the response writer in a
new state, or it panics. -/
inductive Result where
  | ok (w : ResponseWriter)
  | panic (msg : GoString)
  deriving DecidableEq, Repr

/-- Go `http.Handler`. -/
abbrev Handler := ResponseWriter → Request → Result

/-- The response writer a call returned with. -/
def Result.writer? : Result → Option ResponseWriter
  | .ok w => some w
  | .panic _ => none

/-- Decimal digits of `n`, what `%v` prints for an `int`. -/
def itoa (n : Nat) : GoString := (Nat.toDigits 10 n).map (fun c => byte c.toNat)

/-- Go `fmt.Sprintf(format, arg)` for a format whose only verb is one `%s`. -/
def Sprintf1 : GoString → GoString → GoString
  | [], _ => []
  | c :: rest, arg =>
    if c = 37 then
      match rest with
      | 115 :: rest1 => arg ++ rest1
      | _ => c :: Sprintf1 rest arg
    else c :: Sprintf1 rest arg

/-- What `%s` prints for a `*url.URL`: its `String()`, or `<nil>` for nil. -/
def fmtURL : Option URL → GoString
  | some u => u.String
  | none => utf8 "<nil>"

/-! ## The route table (lines 157-163 of `main`) -/

/-- The handler functions registered in `main`. -/
inductive HandlerRef where
  | defaultHandlerFunc | aboutHandler | articleShowHandler
  | articlesIndexHandler | articlesStoreHandler | articleCreateHandler
  deriving DecidableEq, Repr

/-- The regular expression of a path variable: `[0-9]+` or the default
`[^/]+`; each is one byte class repeated one or more times. -/
inductive CharClass where
  | digit | notSlash
  deriving DecidableEq, Repr

/-- Byte `/`. -/
def slash : Fin 256 := 47

/-- Whether a byte is an ASCII decimal digit. -/
def isDigit (b : Fin 256) : Bool := decide (48 ≤ b.val ∧ b.val ≤ 57)

/-- Membership of a byte in a class. -/
def CharClass.mem : CharClass → Fin 256 → Bool
  | .digit, b => isDigit b
  | .notSlash, b => b != slash

/-- A piece of a `mux` path template: literal text or `{name:pattern}`. -/
inductive Piece where
  | lit (s : GoString)
  | var (name : GoString) (cls : CharClass)
  deriving DecidableEq, Repr

/-- A `mux.Route` as `HandleFunc(tpl, handler).Methods(...).Name(name)` builds it. -/
structure Route where
  tpl : List Piece
  handler : HandlerRef
  methods : List GoString
  name : GoString
  deriving DecidableEq, Repr

/-- The routes of the global router `route` in registration order. -/
def routes : List Route :=
  [ ⟨[.lit (utf8 "/")], .defaultHandlerFunc, [utf8 "GET"], utf8 "home"⟩,
    ⟨[.lit (utf8 "/about")], .aboutHandler, [utf8 "GET"], utf8 "about"⟩,
    ⟨[.lit (utf8 "/articles/"), .var (utf8 "id") .digit], .articleShowHandler,
      [utf8 "GET"], utf8 "articles.show"⟩,
    ⟨[.lit (utf8 "/articles")], .articlesIndexHandler, [utf8 "GET"], utf8 "articles.index"⟩,
    ⟨[.lit (utf8 "/articles")], .articlesStoreHandler, [utf8 "POST"], utf8 "articles.store"⟩,
    ⟨[.lit (utf8 "/articles/create")], .articleCreateHandler, [utf8 "GET"],
      utf8 "articles.create"⟩ ]

/-- Go `route.Get(name)`: the route registered under the name, if any. -/
def Router.Get (rs : List Route) (name : GoString) : Option Route :=
  rs.find? (fun rt => rt.name == name)

/-- The path `mux` builds from a template and the values of its variables;
`none` (an error) when a variable has no value or its value does not match
the variable's pattern. -/
def buildPath : List Piece → StringMap → Option GoString
  | [], _ => some []
  | .lit s :: ps, vals => (buildPath ps vals).map (s ++ ·)
  | .var name cls :: ps, vals =>
    match vals.get? name with
    | none => none
    | some v =>
      if v ≠ [] ∧ v.all cls.mem then (buildPath ps vals).map (v ++ ·) else none

/-- Go `(*mux.Route).URL(pairs...)` with the error dropped: a nil URL when the
path cannot be built. -/
def Route.URL (rt : Route) (vals : StringMap) : Option URL :=
  (buildPath rt.tpl vals).map URL.mk

/-! ## The handlers -/

/-- Lines 22-24. -/
def defaultHandlerFunc : Handler := fun w _ =>
  .ok (Fprint w (utf8 "<h1>Hello, 欢迎来到 goblog! </h1>"))

/-- Lines 26-29. -/
def aboutHandler : Handler := fun w _ =>
  .ok (Fprint w (utf8 "此博客是用以记录编程笔记，如您有反馈或建议，请联系 " ++
    utf8 "<a href=\"mailto:summer@example.com\">summer@example.com</a>"))

/-- Lines 31-34. -/
def notFoundHandler : Handler := fun w _ =>
  .ok (Fprint (w.WriteHeader 404) (utf8 "<h1>请求页面未找到 :(</h1><p>如有疑惑，请联系我们。</p>"))

/-- Lines 36-40. -/
def articleShowHandler : Handler := fun w r =>
  let vars := r.Vars
  let id := vars.get (utf8 "id")
  .ok (Fprint w (utf8 "文章ID: " ++ id))

/-- Lines 42-44. -/
def articlesIndexHandler : Handler := fun w _ =>
  .ok (Fprint w (utf8 "访问文章列表"))

/-- The template source of lines 72-93. -/
def storeFormHTML : GoString :=
  utf8 ("\n\t\t<!DOCTYPE html>\n\t\t<html lang=\"en\">\n\t\t<head>\n" ++
    "\t\t\t\t<title>创建文章 —— 我的技术博客</title>\n" ++
    "\t\t\t\t<style type=\"text/css\">.error \x7bcolor: red;\x7d</style>\n" ++
    "\t\t</head>\n\t\t<body>\n" ++
    "\t\t\t\t<form action=\"\x7b\x7b .URL \x7d\x7d\" method=\"post\">\n" ++
    "\t\t\t\t\t\t<p><input type=\"text\" name=\"title\" value=\"\x7b\x7b .Title \x7d\x7d\"></p>\n" ++
    "\t\t\t\t\t\t\x7b\x7b with .Errors.title \x7d\x7d\n" ++
    "\t\t\t\t\t\t<p class=\"error\">\x7b\x7b . \x7d\x7d</p>\n" ++
    "\t\t\t\t\t\t\x7b\x7b end \x7d\x7d\n" ++
    "\t\t\t\t\t\t<p><textarea name=\"body\" cols=\"30\" rows=\"10\">\x7b\x7b .Body \x7d\x7d</textarea></p>\n" ++
    "\t\t\t\t\t\t\x7b\x7b with .Errors.body \x7d\x7d\n" ++
    "\t\t\t\t\t\t<p class=\"error\">\x7b\x7b . \x7d\x7d</p>\n" ++
    "\t\t\t\t\t\t\x7b\x7b end \x7d\x7d\n" ++
    "\t\t\t\t\t\t<p><button type=\"submit\">提交</button></p>\n" ++
    "\t\t\t\t</form>\n\t\t</body>\n\t\t</html>\n\t\t")

/-- Lines 46-114. The route lookup of line 94 dereferences the result of
`route.Get`, which panics when the name is not registered. Parsing and
executing the template are recorded as one write of the template with its
data; the panics on their errors belong to the template engine. -/
def articlesStoreHandler : Handler := fun w r =>
  let title := r.PostFormValue (utf8 "title")
  let body := r.PostFormValue (utf8 "body")
  let errors := validate title body
  if errors.length = 0 then
    let w := Fprint w (utf8 "验证通过!<br>")
    let w := Fprint w (utf8 "title 的值为: " ++ title ++ utf8 " <br>")
    let w := Fprint w (utf8 "title 的长度为: " ++ itoa (len title) ++ utf8 " <br>")
    let w := Fprint w (utf8 "body 的值为: " ++ body ++ utf8 " <br>")
    let w := Fprint w (utf8 "body 的长度为: " ++ itoa (len body) ++ utf8 " <br>")
    .ok w
  else
    match Router.Get routes (utf8 "articles.store") with
    | none => .panic (utf8 "nil pointer dereference")
    | some rt =>
      let storeURL := rt.URL []
      let data : ArticlesFormData :=
        { Title := title, Body := body, URL := storeURL, Errors := errors }
      .ok (w.write (.template (utf8 "create-form") storeFormHTML data))

/-- The format string of lines 135-149. -/
def createFormHTML : GoString :=
  utf8 ("\n  <!DOCTYPE html>\n\t<html lang=\"en\">\n\t<head>\n" ++
    "\t\t\t<title>创建文章 —— 我的技术博客</title>\n\t</head>\n\t<body>\n" ++
    "\t\t\t<form action=\"%s?test=data\" method=\"post\">\n" ++
    "\t\t\t\t\t<p><input type=\"text\" name=\"title\"></p>\n" ++
    "\t\t\t\t\t<p><textarea name=\"body\" cols=\"30\" rows=\"10\"></textarea></p>\n" ++
    "\t\t\t\t\t<p><button type=\"submit\">提交</button></p>\n" ++
    "\t\t\t</form>\n\t</body>\n\t</html>\n\t")

/-- Lines 134-152. -/
def articleCreateHandler : Handler := fun w _ =>
  match Router.Get routes (utf8 "articles.store") with
  | none => .panic (utf8 "nil pointer dereference")
  | some rt =>
    let storeURL := rt.URL []
    .ok (Fprint w (Sprintf1 createFormHTML (fmtURL storeURL)))

/-- The function a handler reference stands for. -/
def HandlerRef.run : HandlerRef → Handler
  | .defaultHandlerFunc => GoBlog.defaultHandlerFunc
  | .aboutHandler => GoBlog.aboutHandler
  | .articleShowHandler => GoBlog.articleShowHandler
  | .articlesIndexHandler => GoBlog.articlesIndexHandler
  | .articlesStoreHandler => GoBlog.articlesStoreHandler
  | .articleCreateHandler => GoBlog.articleCreateHandler

/-! ## The middlewares (lines 117-132) -/

/-- Lines 117-123. -/
def forceHTMLMiddleware (next : Handler) : Handler := fun w r =>
  let w := w.setHeader (utf8 "Content-Type") (utf8 "text/html; charset=utf-8")
  next w r

/-- Go `strings.HasSuffix(s, suffix)`. -/
def HasSuffix (s suffix : GoString) : Bool := suffix.isSuffixOf s

/-- Go `strings.TrimSuffix(s, suffix)`. -/
def TrimSuffix (s suffix : GoString) : GoString :=
  if HasSuffix s suffix then s.take (s.length - suffix.length) else s

/-- The path assignment of lines 127-129. -/
def trimPath (p : GoString) : GoString :=
  if p ≠ utf8 "/" then TrimSuffix p (utf8 "/") else p

/-- Lines 125-132. -/
def removeTrailingSlash (next : Handler) : Handler := fun w r =>
  let r := { r with Path := trimPath r.Path }
  next w r

/-! ## `gorilla/mux`: matching and dispatch -/

/-- Match of a path against the anchored regular expression `mux` compiles a
template to: literal text must be a prefix, a variable takes a non-empty run
of bytes of its class, the longest first, and the path must end where the
template ends. Gives the variables of the match. -/
def matchPieces : List Piece → GoString → Option StringMap
  | [], p => if p = [] then some [] else none
  | .lit s :: ps, p =>
    if s.isPrefixOf p then matchPieces ps (p.drop s.length) else none
  | .var name cls :: ps, p =>
    (List.range (p.takeWhile cls.mem).length).reverse.findSome? fun k =>
      (matchPieces ps (p.drop (k + 1))).map fun vs => (name, p.take (k + 1)) :: vs

/-- Go `strings.Split(p, "/")`. -/
def splitSlash : GoString → List GoString
  | [] => [[]]
  | c :: cs =>
    if c = slash then [] :: splitSlash cs
    else
      match splitSlash cs with
      | [] => [[c]]
      | x :: xs => (c :: x) :: xs

/-- One path element met by `path.Clean` on a rooted path: empty elements and
`.` are dropped, `..` removes the element before it (none at the root). -/
def cleanStep (stack : List GoString) (e : GoString) : List GoString :=
  if e = [] ∨ e = utf8 "." then stack
  else if e = utf8 ".." then stack.dropLast
  else stack ++ [e]

/-- Go `path.Clean(p)` for a rooted path `p`. -/
def pathClean (p : GoString) : GoString :=
  slash :: List.intercalate [slash] ((splitSlash p).foldl cleanStep [])

/-- The function `cleanPath` of `mux`: the canonical form of a path, keeping a
trailing slash. -/
def cleanPath (p : GoString) : GoString :=
  if p = [] then [slash]
  else
    let p := if p.head? ≠ some slash then slash :: p else p
    let np := pathClean p
    if p.getLast? = some slash ∧ np ≠ [slash] then np ++ [slash] else np

/-- What `mux` does with a request. -/
inductive Dispatch where
  | redirect (location : GoString)
  | matched (rt : Route) (vars : StringMap)
  | methodNotAllowed
  | notFound
  deriving DecidableEq, Repr

/-- The name of the matched route and the path variables, if a route matched. -/
def Dispatch.route? : Dispatch → Option (GoString × StringMap)
  | .matched rt vars => some (rt.name, vars)
  | _ => none

/-- The loop of `(*mux.Router).Match` over the routes in registration order.
A route matches when its path template and then its methods match; a route
whose path matches but whose methods do not leaves a method mismatch behind,
which a later full match clears. -/
def Router.Match : List Route → Request → Bool → Dispatch
  | [], _, mismatch => if mismatch then .methodNotAllowed else .notFound
  | rt :: rest, req, mismatch =>
    match matchPieces rt.tpl req.Path with
    | none => Router.Match rest req mismatch
    | some vars =>
      if req.Method ∈ rt.methods then .matched rt vars
      else Router.Match rest req true

/-- The decision of `(*mux.Router).ServeHTTP`: a path that is not in canonical
form is redirected, else the routes are tried. -/
def Router.dispatch (rs : List Route) (req : Request) : Dispatch :=
  if cleanPath req.Path ≠ req.Path then .redirect (cleanPath req.Path)
  else Router.Match rs req false

/-- Go `route.ServeHTTP` for the router configured in `main`: the middleware
registered with `route.Use` wraps the handler of a matched route only, the
not-found handler is the one of line 165. The redirect goes to the canonical
path (`mux` keeps the query string, which the model does not carry). -/
def Router.ServeHTTP : Handler := fun w r =>
  match Router.dispatch routes r with
  | .redirect loc => .ok ((w.setHeader (utf8 "Location") loc).WriteHeader 301)
  | .matched rt vars => forceHTMLMiddleware rt.handler.run w { r with Vars := vars }
  | .methodNotAllowed => .ok (w.WriteHeader 405)
  | .notFound => notFoundHandler w r

/-- The handler passed to `http.ListenAndServe` on line 170. -/
def server : Handler := removeTrailingSlash Router.ServeHTTP

/-- A handler that writes the path of the request it is called with. -/
def pathProbe : Handler := fun w r => .ok (Fprint w r.Path)

/-- A handler that writes the `Content-Type` header it finds set. -/
def headerProbe : Handler := fun w _ => .ok (Fprint w (w.header.get (utf8 "Content-Type")))

/-- A fresh response writer. -/
def ResponseWriter.new : ResponseWriter := ⟨[], none, []⟩

/-- A `GET` request for a path. -/
def getRequest (path : GoString) : Request := ⟨utf8 "GET", path, [], []⟩

/-- A `POST` request for `/articles` with the form fields `title` and `body`. -/
def postArticle (title body : GoString) : Request :=
  ⟨utf8 "POST", utf8 "/articles", [(utf8 "title", title), (utf8 "body", body)], []⟩

/-- The value of the first attribute `key` (given as `name="`) in a text: the
bytes up to the closing quote. -/
def attrValue (key : GoString) : GoString → Option GoString
  | [] => none
  | c :: rest =>
    if key.isPrefixOf (c :: rest) then
      some (((c :: rest).drop key.length).takeWhile (fun b => b != 34))
    else attrValue key rest

/-- The `action` attribute of the first form in the text a call has written. -/
def Result.action? (res : Result) : Option GoString :=
  res.writer?.bind (fun w => (bodyText w.body).bind (attrValue (utf8 "action=\"")))

/-! ## Rune counts -/

theorem runeCountFrom_le (k : Nat) (s : GoString) : runeCountFrom k s ≤ s.length := by
  induction s generalizing k with
  | nil => simp [runeCountFrom]
  | cons c rest ih =>
    cases k with
    | zero =>
      have := ih (runeWidth c rest - 1)
      simp only [runeCountFrom, List.length_cons]; omega
    | succ k =>
      have := ih k
      simp only [runeCountFrom, List.length_cons]; omega

theorem RuneCountInString_nil : RuneCountInString [] = 0 := rfl

theorem RuneCountInString_le_len (s : GoString) : RuneCountInString s ≤ len s :=
  runeCountFrom_le 0 s

theorem RuneCountInString_eq_zero (s : GoString) : RuneCountInString s = 0 ↔ s = [] := by
  cases s with
  | nil => simp [RuneCountInString, runeCountFrom]
  | cons c rest => simp [RuneCountInString, runeCountFrom]

/-! ## The error map -/

theorem validateTitle_nil (title : GoString) :
    validateTitle title [] =
      if title = [] then [(utf8 "title", utf8 "标题不能为空")]
      else if RuneCountInString title < 3 ∨ RuneCountInString title > 40 then
        [(utf8 "title", utf8 "标题长度需介于 3-40")]
      else [] := by
  unfold validateTitle StringMap.set
  split_ifs <;> simp_all

theorem title_ne_body : (utf8 "title" == utf8 "body") = false := by decide

theorem validateBody_title (body m : GoString) :
    validateBody body [(utf8 "title", m)] =
      if body = [] then [(utf8 "title", m), (utf8 "body", utf8 "内容不能为空")]
      else if RuneCountInString body < 10 then
        [(utf8 "title", m), (utf8 "body", utf8 "内容长度需大于或等于10个字节")]
      else [(utf8 "title", m)] := by
  unfold validateBody StringMap.set
  split_ifs <;> simp_all [title_ne_body]

theorem validateBody_nil (body : GoString) :
    validateBody body [] =
      if body = [] then [(utf8 "body", utf8 "内容不能为空")]
      else if RuneCountInString body < 10 then
        [(utf8 "body", utf8 "内容长度需大于或等于10个字节")]
      else [] := by
  unfold validateBody StringMap.set
  split_ifs <;> simp_all

/-- C1: the error map built by `articlesStoreHandler` is empty, which is the
test of line 64 for accepting the submission, if and only if the rune count of
the title is between 3 and 40 and the rune count of the body is at least 10. -/
theorem validate_empty_iff (title body : GoString) :
    (validate title body = [] ↔
      (3 ≤ RuneCountInString title ∧ RuneCountInString title ≤ 40) ∧
        10 ≤ RuneCountInString body) ∧
    ((validate title body).length = 0 ↔ validate title body = []) := by
  refine ⟨?_, List.length_eq_zero⟩
  unfold validate
  rw [validateTitle_nil]
  by_cases ht : title = []
  · subst ht
    rw [if_pos rfl, validateBody_title]
    split_ifs <;> simp [RuneCountInString_nil]
  · rw [if_neg ht]
    by_cases hl : RuneCountInString title < 3 ∨ RuneCountInString title > 40
    · rw [if_pos hl, validateBody_title]
      split_ifs <;> simp <;> omega
    · rw [if_neg hl, validateBody_nil]
      by_cases hb : body = []
      · subst hb
        simp [RuneCountInString_nil]
      · rw [if_neg hb]
        split_ifs <;> simp <;> omega


theorem validate_eq (title body : GoString) :
    validate title body =
      (if title = [] then [(utf8 "title", utf8 "标题不能为空")]
       else if RuneCountInString title < 3 ∨ RuneCountInString title > 40 then
         [(utf8 "title", utf8 "标题长度需介于 3-40")]
       else []) ++
      (if body = [] then [(utf8 "body", utf8 "内容不能为空")]
       else if RuneCountInString body < 10 then
         [(utf8 "body", utf8 "内容长度需大于或等于10个字节")]
       else []) := by
  unfold validate
  rw [validateTitle_nil]
  by_cases ht : title = []
  · rw [if_pos ht, validateBody_title]
    split_ifs <;> simp
  · rw [if_neg ht]
    by_cases hl : RuneCountInString title < 3 ∨ RuneCountInString title > 40
    · rw [if_pos hl, validateBody_title]
      split_ifs <;> simp
    · rw [if_neg hl, validateBody_nil]
      split_ifs <;> simp

theorem body_ne_title : (utf8 "body" == utf8 "title") = false := by decide

theorem title_messages_ne : utf8 "标题不能为空" ≠ utf8 "标题长度需介于 3-40" := by decide

theorem body_messages_ne : utf8 "内容不能为空" ≠ utf8 "内容长度需大于或等于10个字节" := by decide

/-- C2: the error map has at most one entry for `title`, decided by the title
alone: the must-not-be-empty message exactly for the empty title, the length
message exactly for a non-empty title of 1, 2 or more than 40 runes, the two
messages differ, and no entry exactly when the rune count is in [3,40]. -/
theorem title_error (title body : GoString) :
    ((validate title body).get? (utf8 "title") = some (utf8 "标题不能为空") ↔ title = []) ∧
    ((validate title body).get? (utf8 "title") = some (utf8 "标题长度需介于 3-40") ↔
      title ≠ [] ∧ (RuneCountInString title = 1 ∨ RuneCountInString title = 2 ∨
        40 < RuneCountInString title)) ∧
    ((validate title body).get? (utf8 "title") = none ↔
      3 ≤ RuneCountInString title ∧ RuneCountInString title ≤ 40) ∧
    ((validate title body).filter (fun e => e.1 == utf8 "title")).length ≤ 1 ∧
    utf8 "标题不能为空" ≠ utf8 "标题长度需介于 3-40" := by
  have hne := title_messages_ne
  have hz := RuneCountInString_eq_zero title
  rw [validate_eq]
  unfold StringMap.get?
  by_cases ht : title = []
  · subst ht
    rw [if_pos rfl]
    refine ⟨?_, ?_, ?_, ?_, hne⟩
    · simp
    · simp [hne]
    · simp [RuneCountInString_nil]
    · split_ifs <;> simp [body_ne_title]
  · rw [if_neg ht]
    have hpos : RuneCountInString title ≠ 0 := fun h => ht (hz.mp h)
    by_cases hl : RuneCountInString title < 3 ∨ RuneCountInString title > 40
    · rw [if_pos hl]
      refine ⟨?_, ?_, ?_, ?_, hne⟩
      · simp [ht, hne.symm]
      · simp [ht]; omega
      · simp; omega
      · split_ifs <;> simp [body_ne_title]
    · rw [if_neg hl]
      refine ⟨?_, ?_, ?_, ?_, hne⟩
      · split_ifs <;> simp [ht, body_ne_title]
      · split_ifs <;> simp [ht, body_ne_title] <;> omega
      · split_ifs <;> simp [ht, body_ne_title] <;> omega
      · split_ifs <;> simp [body_ne_title]

/-- C3: the body rule counts runes, not bytes: the must-not-be-empty message
exactly for the empty body, the length message exactly for a non-empty body of
fewer than 10 runes whatever its byte length (four 3-byte characters, 12 bytes,
get it), no entry exactly when the rune count is at least 10, and the entry is
the same for every title. -/
theorem body_error (title title2 body : GoString) :
    ((validate title body).get? (utf8 "body") = some (utf8 "内容不能为空") ↔ body = []) ∧
    ((validate title body).get? (utf8 "body") = some (utf8 "内容长度需大于或等于10个字节") ↔
      body ≠ [] ∧ RuneCountInString body < 10) ∧
    ((validate title body).get? (utf8 "body") = none ↔ 10 ≤ RuneCountInString body) ∧
    (validate title2 body).get? (utf8 "body") = (validate title body).get? (utf8 "body") ∧
    (len (utf8 "你好世界") = 12 ∧ RuneCountInString (utf8 "你好世界") = 4 ∧
      (validate title (utf8 "你好世界")).get? (utf8 "body") =
        some (utf8 "内容长度需大于或等于10个字节")) := by
  have hne := body_messages_ne
  have key : ∀ t : GoString, (validate t body).get? (utf8 "body") =
      if body = [] then some (utf8 "内容不能为空")
      else if RuneCountInString body < 10 then some (utf8 "内容长度需大于或等于10个字节")
      else none := by
    intro t
    rw [validate_eq]
    unfold StringMap.get?
    split_ifs <;> simp [title_ne_body]
  have key4 : (validate title (utf8 "你好世界")).get? (utf8 "body") =
      some (utf8 "内容长度需大于或等于10个字节") := by
    rw [validate_eq]
    unfold StringMap.get?
    have h1 : utf8 "你好世界" ≠ [] := by decide
    have h2 : RuneCountInString (utf8 "你好世界") < 10 := by decide
    rw [if_neg h1, if_pos h2]
    split_ifs <;> simp [title_ne_body]
  refine ⟨?_, ?_, ?_, ?_, by decide, by decide, key4⟩
  · rw [key]
    split_ifs with h1 h2
    · simp [h1]
    · simp [h1, Ne.symm hne]
    · simp [h1]
  · rw [key]
    split_ifs with h1 h2
    · simp [h1, hne]
    · simp [h1, h2]
    · simp [h1, h2]
  · rw [key]
    split_ifs with h1 h2
    · simp [h1, RuneCountInString_nil]
    · simp; omega
    · simp; omega
  · rw [key, key]

/-! ## The middlewares -/

theorem utf8_slash : utf8 "/" = [slash] := by decide

theorem utf8_slash_slash : utf8 "//" = [slash, slash] := by decide

theorem HasSuffix_nil (suffix : GoString) (h : suffix ≠ []) : HasSuffix [] suffix = false := by
  cases suffix with
  | nil => exact absurd rfl h
  | cons a t =>
    unfold HasSuffix
    rw [Bool.eq_false_iff]
    intro hs
    rw [List.isSuffixOf_iff_suffix] at hs
    simp at hs

theorem HasSuffix_concat_one (q : GoString) (a b : Fin 256) :
    HasSuffix (q ++ [b]) [a] = true ↔ a = b := by
  unfold HasSuffix
  rw [List.isSuffixOf_iff_suffix]
  constructor
  · rintro ⟨t, ht⟩
    have := congrArg List.reverse ht
    simp at this
    exact this.1
  · rintro rfl
    exact ⟨q, rfl⟩

theorem HasSuffix_concat_two (q : GoString) (a b c d : Fin 256) :
    HasSuffix (q ++ [c, d]) [a, b] = true ↔ a = c ∧ b = d := by
  unfold HasSuffix
  rw [List.isSuffixOf_iff_suffix]
  constructor
  · rintro ⟨t, ht⟩
    have := congrArg List.reverse ht
    simp at this
    exact ⟨this.2.1, this.1⟩
  · rintro ⟨rfl, rfl⟩
    exact ⟨q, rfl⟩

theorem HasSuffix_two_one (c : Fin 256) (a b : Fin 256) : HasSuffix [c] [a, b] = false := by
  unfold HasSuffix
  rw [Bool.eq_false_iff]
  intro hs
  rw [List.isSuffixOf_iff_suffix] at hs
  have := hs.length_le
  simp at this

theorem trimPath_concat (q : GoString) (b : Fin 256) :
    trimPath (q ++ [b]) = if b = slash ∧ q ≠ [] then q else q ++ [b] := by
  unfold trimPath TrimSuffix
  rw [utf8_slash]
  by_cases hb : b = slash
  · subst hb
    by_cases hq : q = []
    · subst hq
      simp
    · have h1 : q ++ [slash] ≠ [slash] := by
        intro h
        have := congrArg List.length h
        simp at this
        exact hq this
      have h2 : HasSuffix (q ++ [slash]) [slash] = true := (HasSuffix_concat_one q slash slash).mpr rfl
      simp [h1, h2, hq]
  · have h2 : ¬ HasSuffix (q ++ [b]) [slash] = true := by
      rw [HasSuffix_concat_one]
      exact fun h => hb h.symm
    simp [h2, hb]

theorem trimPath_nil : trimPath [] = [] := by decide

/-- C4: `removeTrailingSlash` calls the router with the path unchanged when it
is `/` or does not end in `/`, else with the path without its last byte; so the
server answers a request for `/articles/` as it answers one for `/articles` with
the same method, form and writer. -/
theorem removeTrailingSlash_path (next : Handler) (w : ResponseWriter) (r : Request) :
    removeTrailingSlash next w r =
      next w { r with Path :=
        if r.Path = utf8 "/" ∨ HasSuffix r.Path (utf8 "/") = false then r.Path
        else r.Path.dropLast } ∧
    server w { r with Path := utf8 "/articles/" } =
      server w { r with Path := utf8 "/articles" } ∧
    server w { r with Path := utf8 "/articles/" } =
      Router.ServeHTTP w { r with Path := utf8 "/articles" } := by
  refine ⟨?_, ?_, ?_⟩
  · have h : trimPath r.Path =
        if r.Path = utf8 "/" ∨ HasSuffix r.Path (utf8 "/") = false then r.Path
        else r.Path.dropLast := by
      rw [utf8_slash]
      rcases List.eq_nil_or_concat r.Path with h | ⟨q, b, h⟩
      · rw [h, trimPath_nil]
        simp
      · rw [h, List.concat_eq_append, trimPath_concat]
        by_cases hb : b = slash
        · subst hb
          have h2 : HasSuffix (q ++ [slash]) [slash] = true :=
            (HasSuffix_concat_one q slash slash).mpr rfl
          by_cases hq : q = []
          · subst hq
            simp
          · have h1 : q ++ [slash] ≠ [slash] := by
              intro h
              have := congrArg List.length h
              simp at this
              exact hq this
            simp [h1, h2, hq]
        · have h2 : HasSuffix (q ++ [b]) [slash] = false := by
            rw [Bool.eq_false_iff, Ne, HasSuffix_concat_one]
            exact fun h => hb h.symm
          simp [h2, hb]
    show next w { r with Path := trimPath r.Path } = _
    rw [h]
  · have h1 : trimPath (utf8 "/articles/") = utf8 "/articles" := by decide
    have h2 : trimPath (utf8 "/articles") = utf8 "/articles" := by decide
    show Router.ServeHTTP w { r with Path := trimPath (utf8 "/articles/") } =
      Router.ServeHTTP w { r with Path := trimPath (utf8 "/articles") }
    rw [h1, h2]
  · have h1 : trimPath (utf8 "/articles/") = utf8 "/articles" := by decide
    show Router.ServeHTTP w { r with Path := trimPath (utf8 "/articles/") } = _
    rw [h1]

/-- C10, the claim fails: for the path `/articles//` the router is called with
`/articles/`, which is not the root and ends in `/`. -/
theorem trailing_slash_kept :
    removeTrailingSlash pathProbe ResponseWriter.new (getRequest (utf8 "/articles//")) =
      Result.ok ⟨[], some 200, [Chunk.text (utf8 "/articles/")]⟩ ∧
    utf8 "/articles/" ≠ utf8 "/" ∧ HasSuffix (utf8 "/articles/") (utf8 "/") = true := by
  decide

/-- C10 as amended: the path `removeTrailingSlash` passes on is the root or
does not end in `/`, except when the request path ends in `//` and is not `//`
itself: one trailing slash is removed, not all. -/
theorem trailing_slash_normal (next : Handler) (w : ResponseWriter) (r : Request) :
    removeTrailingSlash next w r = next w { r with Path := trimPath r.Path } ∧
    ((trimPath r.Path = utf8 "/" ∨ HasSuffix (trimPath r.Path) (utf8 "/") = false) ↔
      (r.Path = utf8 "//" ∨ HasSuffix r.Path (utf8 "//") = false)) := by
  refine ⟨rfl, ?_⟩
  rw [utf8_slash, utf8_slash_slash]
  rcases List.eq_nil_or_concat r.Path with h | ⟨q, b, h⟩
  · rw [h, trimPath_nil]
    simp [HasSuffix_nil]
  · rw [h, List.concat_eq_append, trimPath_concat]
    by_cases hb : b = slash
    · subst hb
      rcases List.eq_nil_or_concat q with hq | ⟨q2, c, hq⟩
      · subst hq
        have h2 : HasSuffix [slash] [slash, slash] = false := HasSuffix_two_one _ _ _
        simp [h2]
      · rw [hq, List.concat_eq_append]
        have hne : q2 ++ [c] ≠ [] := by simp
        rw [if_pos ⟨rfl, hne⟩]
        have e : q2 ++ [c] ++ [slash] = q2 ++ [c, slash] := by simp
        rw [e]
        have h3 := HasSuffix_concat_one q2 slash c
        have h4 := HasSuffix_concat_two q2 slash slash c slash
        by_cases hc : c = slash
        · subst hc
          have h5 : HasSuffix (q2 ++ [slash]) [slash] = true := h3.mpr rfl
          have h6 : HasSuffix (q2 ++ [slash, slash]) [slash, slash] = true := h4.mpr ⟨rfl, rfl⟩
          simp [h5, h6]
        · have h5 : HasSuffix (q2 ++ [c]) [slash] = false := by
            rw [Bool.eq_false_iff, Ne, h3]
            exact fun h => hc h.symm
          have h6 : HasSuffix (q2 ++ [c, slash]) [slash, slash] = false := by
            rw [Bool.eq_false_iff, Ne, h4]
            exact fun h => hc h.1.symm
          simp [h5, h6]
    · have hn : ¬ (b = slash ∧ q ≠ []) := fun h => hb h.1
      rw [if_neg hn]
      have h5 : HasSuffix (q ++ [b]) [slash] = false := by
        rw [Bool.eq_false_iff, Ne, HasSuffix_concat_one]
        exact fun h => hb h.symm
      have h6 : HasSuffix (q ++ [b]) [slash, slash] = false := by
        rcases List.eq_nil_or_concat q with hq | ⟨q2, c, hq⟩
        · subst hq
          exact HasSuffix_two_one _ _ _
        · rw [hq, List.concat_eq_append]
          have e : q2 ++ [c] ++ [b] = q2 ++ [c, b] := by simp
          rw [e, Bool.eq_false_iff, Ne, HasSuffix_concat_two]
          exact fun h => hb h.2.symm
      simp [h5, h6]

theorem find_map_set (m : StringMap) (k v : GoString)
    (h : m.any (fun e => e.1 == k) = true) :
    (m.map (fun e => if e.1 == k then (k, v) else e)).find? (fun e => e.1 == k) =
      some (k, v) := by
  induction m with
  | nil => simp at h
  | cons e m ih =>
    by_cases he : e.1 = k
    · simp [he]
    · have hm : m.any (fun e => e.1 == k) = true := by
        simpa [he] using h
      simp [he, List.find?_cons]
      simpa using ih hm

theorem StringMap.get?_set (m : StringMap) (k v : GoString) : (m.set k v).get? k = some v := by
  unfold StringMap.get? StringMap.set
  by_cases h : m.any (fun e => e.1 == k) = true
  · rw [if_pos h, find_map_set m k v h]
    rfl
  · rw [if_neg h]
    have hn : m.find? (fun e => e.1 == k) = none := by
      rw [List.find?_eq_none]
      intro x hx hk
      exact h (List.any_eq_true.mpr ⟨x, hx, hk⟩)
    simp [List.find?_append, hn]

/-- C9: `forceHTMLMiddleware` sets `Content-Type` to `text/html; charset=utf-8`
on the writer and then makes one call of the wrapped handler, with that writer
and the same request, so the handler finds the header set; `removeTrailingSlash`
too makes one call of the wrapped handler. Neither returns without it: a
handler that writes what it sees adds exactly one write. -/
theorem middleware_calls_next (next : Handler) (w : ResponseWriter) (r : Request) :
    forceHTMLMiddleware next w r =
      next (w.setHeader (utf8 "Content-Type") (utf8 "text/html; charset=utf-8")) r ∧
    (w.setHeader (utf8 "Content-Type") (utf8 "text/html; charset=utf-8")).header.get?
      (utf8 "Content-Type") = some (utf8 "text/html; charset=utf-8") ∧
    removeTrailingSlash next w r = next w { r with Path := trimPath r.Path } ∧
    (forceHTMLMiddleware headerProbe w r).writer?.map ResponseWriter.body =
      some (w.body ++ [Chunk.text (utf8 "text/html; charset=utf-8")]) ∧
    (removeTrailingSlash pathProbe w r).writer?.map ResponseWriter.body =
      some (w.body ++ [Chunk.text (trimPath r.Path)]) := by
  have hget := StringMap.get?_set w.header (utf8 "Content-Type") (utf8 "text/html; charset=utf-8")
  refine ⟨rfl, hget, rfl, ?_, rfl⟩
  simp only [forceHTMLMiddleware, headerProbe, Fprint, ResponseWriter.write, Result.writer?,
    ResponseWriter.setHeader, StringMap.get, hget, Option.map, Option.getD]

/-! ## The form handlers -/

theorem get_store_route :
    Router.Get routes (utf8 "articles.store") =
      some ⟨[.lit (utf8 "/articles")], .articlesStoreHandler, [utf8 "POST"],
        utf8 "articles.store"⟩ := by
  decide

theorem store_route_URL :
    (Router.Get routes (utf8 "articles.store")).bind (fun rt => rt.URL []) =
      some ⟨utf8 "/articles"⟩ := by
  decide

/-- C6, the claim fails: the `action` attribute of the form that
`articleCreateHandler` writes is `/articles?test=data`, not the reversed URL
`/articles` of `articles.store`. -/
theorem create_action_has_query :
    (articleCreateHandler ResponseWriter.new (getRequest (utf8 "/articles/create"))).action? =
      some (utf8 "/articles?test=data") ∧
    utf8 "/articles?test=data" ≠ utf8 "/articles" ∧
    (Router.Get routes (utf8 "articles.store")).bind (fun rt => rt.URL []) =
      some ⟨utf8 "/articles"⟩ := by
  decide

/-- C6 as amended: on every call `articleCreateHandler` writes the format of
lines 135-149 with the reversed URL of `articles.store`, the path `/articles`,
in place of `%s`; the `action` attribute of the form in that text is the URL
followed by the literal `?test=data`. -/
theorem create_form_action (w : ResponseWriter) (r : Request) :
    articleCreateHandler w r =
      Result.ok (Fprint w (Sprintf1 createFormHTML (utf8 "/articles"))) ∧
    (Router.Get routes (utf8 "articles.store")).bind (fun rt => rt.URL []) =
      some ⟨utf8 "/articles"⟩ ∧
    attrValue (utf8 "action=\"") (Sprintf1 createFormHTML (utf8 "/articles")) =
      some (utf8 "/articles" ++ utf8 "?test=data") := by
  have hu : Route.URL ⟨[.lit (utf8 "/articles")], .articlesStoreHandler, [utf8 "POST"],
      utf8 "articles.store"⟩ [] = some ⟨utf8 "/articles"⟩ := by decide
  have main : articleCreateHandler w r =
      Result.ok (Fprint w (Sprintf1 createFormHTML (utf8 "/articles"))) := by
    simp only [articleCreateHandler, get_store_route, hu, fmtURL, URL.String]
  exact ⟨main, store_route_URL, by decide⟩

/-- C7: when validation fails `articlesStoreHandler` returns after one write,
the execution of the template `create-form` on the data `Title`, `Body` (the
submitted values), `URL` (`/articles`, the reversed `articles.store`) and
`Errors` (the error map); it writes no confirmation text and sets no status,
so the status is 200 unless one was written before. For title `""` and body
`"short"` the server answers 200 and the error map has the two entries
title-empty and body-too-short. -/
theorem store_rejected (w : ResponseWriter) (r : Request)
    (h : validate (r.PostFormValue (utf8 "title")) (r.PostFormValue (utf8 "body")) ≠ []) :
    articlesStoreHandler w r =
      Result.ok (w.write (Chunk.template (utf8 "create-form") storeFormHTML
        { Title := r.PostFormValue (utf8 "title"),
          Body := r.PostFormValue (utf8 "body"),
          URL := some ⟨utf8 "/articles"⟩,
          Errors := validate (r.PostFormValue (utf8 "title"))
            (r.PostFormValue (utf8 "body")) })) ∧
    (articlesStoreHandler w r).writer?.map ResponseWriter.status =
      some (some (w.status.getD 200)) ∧
    server ResponseWriter.new (postArticle (utf8 "") (utf8 "short")) =
      Result.ok ⟨[(utf8 "Content-Type", utf8 "text/html; charset=utf-8")], some 200,
        [Chunk.template (utf8 "create-form") storeFormHTML
          { Title := utf8 "", Body := utf8 "short", URL := some ⟨utf8 "/articles"⟩,
            Errors := [(utf8 "title", utf8 "标题不能为空"),
              (utf8 "body", utf8 "内容长度需大于或等于10个字节")] }]⟩ := by
  have hu : Route.URL ⟨[.lit (utf8 "/articles")], .articlesStoreHandler, [utf8 "POST"],
      utf8 "articles.store"⟩ [] = some ⟨utf8 "/articles"⟩ := by decide
  have hl : ¬ (validate (r.PostFormValue (utf8 "title"))
      (r.PostFormValue (utf8 "body"))).length = 0 := fun h0 => h (List.length_eq_zero.mp h0)
  have main : articlesStoreHandler w r =
      Result.ok (w.write (Chunk.template (utf8 "create-form") storeFormHTML
        { Title := r.PostFormValue (utf8 "title"),
          Body := r.PostFormValue (utf8 "body"),
          URL := some ⟨utf8 "/articles"⟩,
          Errors := validate (r.PostFormValue (utf8 "title"))
            (r.PostFormValue (utf8 "body")) })) := by
    simp only [articlesStoreHandler, if_neg hl, get_store_route, hu]
  refine ⟨main, ?_, by rfl⟩
  rw [main]
  rfl

/-- Witness of C7 at the submission title `""`, body `"short"`. -/
theorem store_rejected_witness :
    validate ((postArticle (utf8 "") (utf8 "short")).PostFormValue (utf8 "title"))
        ((postArticle (utf8 "") (utf8 "short")).PostFormValue (utf8 "body")) ≠ [] ∧
    (articlesStoreHandler ResponseWriter.new (postArticle (utf8 "") (utf8 "short"))).writer?.map
        ResponseWriter.status = some (some ((ResponseWriter.new).status.getD 200)) :=
  ⟨by decide, (store_rejected ResponseWriter.new (postArticle (utf8 "") (utf8 "short"))
    (by decide)).2.1⟩

/-- The accepted branch of `articlesStoreHandler`, lines 65-69: five writes,
the values echoed and `len` of each printed. -/
theorem store_accepted (w : ResponseWriter) (r : Request)
    (h : validate (r.PostFormValue (utf8 "title")) (r.PostFormValue (utf8 "body")) = []) :
    (articlesStoreHandler w r).writer?.map ResponseWriter.body =
      some (w.body ++
        [Chunk.text (utf8 "验证通过!<br>"),
         Chunk.text (utf8 "title 的值为: " ++ r.PostFormValue (utf8 "title") ++ utf8 " <br>"),
         Chunk.text (utf8 "title 的长度为: " ++ itoa (len (r.PostFormValue (utf8 "title"))) ++
           utf8 " <br>"),
         Chunk.text (utf8 "body 的值为: " ++ r.PostFormValue (utf8 "body") ++ utf8 " <br>"),
         Chunk.text (utf8 "body 的长度为: " ++ itoa (len (r.PostFormValue (utf8 "body"))) ++
           utf8 " <br>")]) := by
  simp [articlesStoreHandler, h, Fprint, ResponseWriter.write, Result.writer?]

/-- C8, the code at a title of fourteen 3-byte characters and the body
`1234567890`: validation passes on the rune count 14, and the confirmation
reports the title length 42, the byte count, which is above 40. -/
theorem accepted_reports_byte_length :
    RuneCountInString (utf8 "你好世界你好世界你好世界你好") = 14 ∧
    validate (utf8 "你好世界你好世界你好世界你好") (utf8 "1234567890") = [] ∧
    articlesStoreHandler ResponseWriter.new
        (postArticle (utf8 "你好世界你好世界你好世界你好") (utf8 "1234567890")) =
      Result.ok ⟨[], some 200,
        [Chunk.text (utf8 "验证通过!<br>"),
         Chunk.text (utf8 "title 的值为: 你好世界你好世界你好世界你好 <br>"),
         Chunk.text (utf8 "title 的长度为: 42 <br>"),
         Chunk.text (utf8 "body 的值为: 1234567890 <br>"),
         Chunk.text (utf8 "body 的长度为: 10 <br>")]⟩ := by
  decide

/-! ## Routing -/

theorem matchPieces_lit (l p : GoString) :
    matchPieces [.lit l] p = if p = l then some [] else none := by
  simp only [matchPieces]
  by_cases hp : l.isPrefixOf p = true
  · rw [if_pos hp]
    rw [List.isPrefixOf_iff_prefix] at hp
    obtain ⟨t, rfl⟩ := hp
    simp
  · rw [if_neg hp]
    have : p ≠ l := by
      intro h
      apply hp
      rw [List.isPrefixOf_iff_prefix, h]
    rw [if_neg this]

theorem matchPieces_lit_append (l : GoString) (ps : List Piece) (s : GoString) :
    matchPieces (.lit l :: ps) (l ++ s) = matchPieces ps s := by
  have h : l.isPrefixOf (l ++ s) = true := by
    rw [List.isPrefixOf_iff_prefix]
    exact List.prefix_append l s
  simp only [matchPieces, h, if_true, List.drop_left]

theorem takeWhile_all (f : Fin 256 → Bool) (s : GoString) (h : s.all f = true) :
    s.takeWhile f = s := by
  induction s with
  | nil => rfl
  | cons c t ih =>
    simp only [List.all_cons, Bool.and_eq_true] at h
    simp [List.takeWhile_cons, h.1, ih h.2]

theorem takeWhile_length_lt (f : Fin 256 → Bool) (s : GoString) (h : s.all f = false) :
    (s.takeWhile f).length < s.length := by
  induction s with
  | nil => simp at h
  | cons c t ih =>
    by_cases hc : f c = true
    · have ht : t.all f = false := by
        simpa [List.all_cons, hc] using h
      have := ih ht
      simp [List.takeWhile_cons, hc]
      exact this
    · simp [List.takeWhile_cons, hc]

theorem matchPieces_var (name : GoString) (cls : CharClass) (s : GoString) :
    matchPieces [.var name cls] s =
      if s ≠ [] ∧ s.all cls.mem = true then some [(name, s)] else none := by
  simp only [matchPieces]
  by_cases ha : s.all cls.mem = true
  · rw [takeWhile_all _ s ha]
    cases hs : s.length with
    | zero =>
      have : s = [] := List.length_eq_zero.mp hs
      simp [this]
    | succ m =>
      have hne : s ≠ [] := by
        intro h
        rw [h] at hs
        simp at hs
      rw [if_pos ⟨hne, ha⟩, List.range_succ, List.reverse_append]
      have hd : s.drop (m + 1) = [] := by
        rw [← hs]
        exact List.drop_length s
      have ht : s.take (m + 1) = s := by
        rw [← hs]
        exact List.take_length s
      simp [List.findSome?_cons, hd, ht, hs]
  · have hf : s.all cls.mem = false := by simpa using ha
    have hlt := takeWhile_length_lt _ s hf
    rw [if_neg (fun h => ha h.2), List.findSome?_eq_none_iff]
    intro k hk
    have hk2 : k < (s.takeWhile cls.mem).length := by
      simpa using hk
    have hd : s.drop (k + 1) ≠ [] := by
      intro h
      have := List.drop_eq_nil_iff.mp h
      omega
    simp [hd]

theorem splitSlash_noSlash (s : GoString) (h : slash ∉ s) : splitSlash s = [s] := by
  induction s with
  | nil => rfl
  | cons c t ih =>
    have hc : c ≠ slash := fun e => h (by simp [e])
    have ht : slash ∉ t := fun e => h (List.mem_cons_of_mem _ e)
    simp [splitSlash, hc, ih ht]

theorem utf8_articles_slash :
    utf8 "/articles/" = [47, 97, 114, 116, 105, 99, 108, 101, 115, 47] := by decide

theorem utf8_articles : utf8 "/articles" = [47, 97, 114, 116, 105, 99, 108, 101, 115] := by
  decide

theorem utf8_about : utf8 "/about" = [47, 97, 98, 111, 117, 116] := by decide

theorem utf8_articles_create :
    utf8 "/articles/create" =
      [47, 97, 114, 116, 105, 99, 108, 101, 115, 47, 99, 114, 101, 97, 116, 101] := by
  decide

theorem utf8_create : utf8 "create" = [99, 114, 101, 97, 116, 101] := by decide

theorem utf8_dot : utf8 "." = [46] := by decide

theorem utf8_dotdot : utf8 ".." = [46, 46] := by decide

theorem getLast?_ne_slash (s : GoString) (h : slash ∉ s) : s.getLast? ≠ some slash := by
  intro e
  exact h (List.mem_of_getLast?_eq_some e)

theorem cleanPath_articles (s : GoString) (hs : s ≠ []) (hslash : slash ∉ s)
    (hdot : s ≠ utf8 ".") (hdots : s ≠ utf8 "..") :
    cleanPath (utf8 "/articles/" ++ s) = utf8 "/articles/" ++ s := by
  rw [utf8_dot] at hdot
  rw [utf8_dotdot] at hdots
  have hsplit : splitSlash (utf8 "/articles/" ++ s) =
      [[], [97, 114, 116, 105, 99, 108, 101, 115], s] := by
    rw [utf8_articles_slash]
    simp [splitSlash, slash, splitSlash_noSlash s hslash]
  have hfold : (splitSlash (utf8 "/articles/" ++ s)).foldl cleanStep [] =
      [[97, 114, 116, 105, 99, 108, 101, 115], s] := by
    rw [hsplit]
    simp [cleanStep, utf8_dot, utf8_dotdot, hs, hdot, hdots]
  have hlast : (utf8 "/articles/" ++ s).getLast? ≠ some slash := by
    rw [List.getLast?_append_of_ne_nil _ hs]
    exact getLast?_ne_slash s hslash
  have hne : utf8 "/articles/" ++ s ≠ [] := by
    rw [utf8_articles_slash]
    simp
  have hhead : (utf8 "/articles/" ++ s).head? = some slash := by
    rw [utf8_articles_slash]
    rfl
  unfold cleanPath
  rw [if_neg hne]
  simp only [hhead, ne_eq, not_true_eq_false, if_false, hlast, false_and]
  unfold pathClean
  rw [hfold, utf8_articles_slash]
  simp [List.intercalate, slash]

theorem trimPath_articles (s : GoString) (hs : s ≠ []) (hslash : slash ∉ s) :
    trimPath (utf8 "/articles/" ++ s) = utf8 "/articles/" ++ s := by
  rcases List.eq_nil_or_concat s with h | ⟨q, b, h⟩
  · exact absurd h hs
  · rw [List.concat_eq_append] at h
    have hb : b ≠ slash := by
      intro e
      apply hslash
      rw [h, e]
      simp
    rw [h, ← List.append_assoc, trimPath_concat, if_neg (fun hh => hb hh.1)]

theorem CharClass.mem_digit : CharClass.digit.mem = isDigit := by
  funext b
  rfl

theorem Match_articles_notFound (s : GoString) (form vars : StringMap)
    (hnd : s.all isDigit = false) (hc : s ≠ utf8 "create") :
    Router.Match routes ⟨utf8 "GET", utf8 "/articles/" ++ s, form, vars⟩ false =
      Dispatch.notFound := by
  have h1 : utf8 "/articles/" ++ s ≠ utf8 "/" := by
    rw [utf8_articles_slash, utf8_slash]
    simp
  have h2 : utf8 "/articles/" ++ s ≠ utf8 "/about" := by
    rw [utf8_articles_slash, utf8_about]
    simp
  have h3 : utf8 "/articles/" ++ s ≠ utf8 "/articles" := by
    rw [utf8_articles_slash, utf8_articles]
    simp
  have h4 : ¬ utf8 "/articles/" ++ s = utf8 "/articles/create" := by
    rw [utf8_articles_slash, utf8_articles_create]
    rw [utf8_create] at hc
    simpa using hc
  have hd2 : ¬ (s ≠ [] ∧ s.all isDigit = true) := by
    intro h
    have h5 : s.all isDigit = true := h.2
    rw [hnd] at h5
    exact Bool.false_ne_true h5
  simp only [routes, Router.Match, matchPieces_lit, matchPieces_lit_append, matchPieces_var,
    if_neg h1, if_neg h2, if_neg h3, if_neg h4, CharClass.mem_digit, if_neg hd2]
  rfl

theorem Match_articles_show (s : GoString) (form vars : StringMap)
    (hs : s ≠ []) (hd : s.all isDigit = true) :
    Router.Match routes ⟨utf8 "GET", utf8 "/articles/" ++ s, form, vars⟩ false =
      Dispatch.matched ⟨[.lit (utf8 "/articles/"), .var (utf8 "id") .digit],
        .articleShowHandler, [utf8 "GET"], utf8 "articles.show"⟩ [(utf8 "id", s)] := by
  have h1 : utf8 "/articles/" ++ s ≠ utf8 "/" := by
    rw [utf8_articles_slash, utf8_slash]
    simp
  have h2 : utf8 "/articles/" ++ s ≠ utf8 "/about" := by
    rw [utf8_articles_slash, utf8_about]
    simp
  have hget : utf8 "GET" ∈ [utf8 "GET"] := List.mem_singleton.mpr rfl
  have hd2 : s ≠ [] ∧ s.all isDigit = true := ⟨hs, hd⟩
  simp only [routes, Router.Match, matchPieces_lit, matchPieces_lit_append, matchPieces_var,
    if_neg h1, if_neg h2, CharClass.mem_digit, if_pos hd2, if_pos hget]

theorem digits_noSlash (d : GoString) (hd : d.all isDigit = true) : slash ∉ d := by
  intro h
  have := List.all_eq_true.mp hd slash h
  exact absurd this (by decide)

theorem digits_ne_dot (d : GoString) (hd : d.all isDigit = true) :
    d ≠ utf8 "." ∧ d ≠ utf8 ".." := by
  rw [utf8_dot, utf8_dotdot]
  constructor
  · intro h
    rw [h] at hd
    exact absurd hd (by decide)
  · intro h
    rw [h] at hd
    exact absurd hd (by decide)

/-- C5, the claim fails: `..` is a single segment, not all digits and not
`create`, and a GET request for `/articles/..` is not dispatched to the
not-found handler: `mux` finds the path not in canonical form and answers with
a redirect (301) to `/`. -/
theorem dot_segment_redirected :
    utf8 ".." ≠ [] ∧ slash ∉ utf8 ".." ∧ (utf8 "..").all isDigit = false ∧
    utf8 ".." ≠ utf8 "create" ∧
    Router.dispatch routes (getRequest (utf8 "/articles/" ++ utf8 "..")) =
      Dispatch.redirect (utf8 "/") ∧
    server ResponseWriter.new (getRequest (utf8 "/articles/" ++ utf8 "..")) =
      Result.ok ⟨[(utf8 "Location", utf8 "/")], some 301, []⟩ ∧
    server ResponseWriter.new (getRequest (utf8 "/articles/" ++ utf8 "..")) ≠
      notFoundHandler ResponseWriter.new (getRequest (utf8 "/articles/" ++ utf8 "..")) := by
  decide

/-- C5 as amended: against the route table of `main`, a GET request for
`/articles/d` with `d` a non-empty string of decimal digits matches
`articles.show` with `id = d` and the server answers `文章ID: d`; a GET request
for `/articles/s`, where `s` is a non-empty segment without `/` that is not all
digits and is none of `create`, `.` and `..`, matches no route and gets the
answer of the not-found handler, status 404. -/
theorem articles_show_route (d s : GoString)
    (hd : d ≠ []) (hdig : d.all isDigit = true)
    (hs : s ≠ []) (hslash : slash ∉ s) (hnd : s.all isDigit = false)
    (hc : s ≠ utf8 "create") (hdot : s ≠ utf8 ".") (hdots : s ≠ utf8 "..") :
    (Router.dispatch routes (getRequest (utf8 "/articles/" ++ d))).route? =
      some (utf8 "articles.show", [(utf8 "id", d)]) ∧
    server ResponseWriter.new (getRequest (utf8 "/articles/" ++ d)) =
      Result.ok ⟨[(utf8 "Content-Type", utf8 "text/html; charset=utf-8")], some 200,
        [Chunk.text (utf8 "文章ID: " ++ d)]⟩ ∧
    Router.dispatch routes (getRequest (utf8 "/articles/" ++ s)) = Dispatch.notFound ∧
    server ResponseWriter.new (getRequest (utf8 "/articles/" ++ s)) =
      notFoundHandler ResponseWriter.new (getRequest (utf8 "/articles/" ++ s)) ∧
    notFoundHandler ResponseWriter.new (getRequest (utf8 "/articles/" ++ s)) =
      Result.ok ⟨[], some 404,
        [Chunk.text (utf8 "<h1>请求页面未找到 :(</h1><p>如有疑惑，请联系我们。</p>")]⟩ := by
  have hdslash := digits_noSlash d hdig
  have hddot := digits_ne_dot d hdig
  have hcd := cleanPath_articles d hd hdslash hddot.1 hddot.2
  have hcs := cleanPath_articles s hs hslash hdot hdots
  have htd := trimPath_articles d hd hdslash
  have hts := trimPath_articles s hs hslash
  have hmd := Match_articles_show d [] [] hd hdig
  have hms := Match_articles_notFound s [] [] hnd hc
  have dd : Router.dispatch routes (getRequest (utf8 "/articles/" ++ d)) =
      Dispatch.matched ⟨[.lit (utf8 "/articles/"), .var (utf8 "id") .digit],
        .articleShowHandler, [utf8 "GET"], utf8 "articles.show"⟩ [(utf8 "id", d)] := by
    unfold Router.dispatch getRequest
    simp only [hcd, ne_eq, not_true_eq_false, if_false]
    exact hmd
  have ds : Router.dispatch routes (getRequest (utf8 "/articles/" ++ s)) =
      Dispatch.notFound := by
    unfold Router.dispatch getRequest
    simp only [hcs, ne_eq, not_true_eq_false, if_false]
    exact hms
  refine ⟨?_, ?_, ds, ?_, rfl⟩
  · rw [dd]
    rfl
  · have e : server ResponseWriter.new (getRequest (utf8 "/articles/" ++ d)) =
        Router.ServeHTTP ResponseWriter.new (getRequest (utf8 "/articles/" ++ d)) := by
      show Router.ServeHTTP ResponseWriter.new
        { getRequest (utf8 "/articles/" ++ d) with
          Path := trimPath (getRequest (utf8 "/articles/" ++ d)).Path } = _
      simp only [getRequest, htd]
    rw [e]
    unfold Router.ServeHTTP
    rw [dd]
    have hid : StringMap.get [(utf8 "id", d)] (utf8 "id") = d := by
      simp [StringMap.get, StringMap.get?]
    have hset : StringMap.set [] (utf8 "Content-Type") (utf8 "text/html; charset=utf-8") =
        [(utf8 "Content-Type", utf8 "text/html; charset=utf-8")] := by
      simp [StringMap.set]
    simp only [forceHTMLMiddleware, HandlerRef.run, articleShowHandler, Fprint,
      ResponseWriter.write, ResponseWriter.setHeader, ResponseWriter.new, hid, hset,
      Option.getD, List.nil_append]
  · have e : server ResponseWriter.new (getRequest (utf8 "/articles/" ++ s)) =
        Router.ServeHTTP ResponseWriter.new (getRequest (utf8 "/articles/" ++ s)) := by
      show Router.ServeHTTP ResponseWriter.new
        { getRequest (utf8 "/articles/" ++ s) with
          Path := trimPath (getRequest (utf8 "/articles/" ++ s)).Path } = _
      simp only [getRequest, hts]
    rw [e]
    unfold Router.ServeHTTP
    rw [ds]

/-- Witness of C5 at `d = "123"` and `s = "abc"`. -/
theorem articles_show_route_witness :
    (Router.dispatch routes (getRequest (utf8 "/articles/" ++ utf8 "123"))).route? =
      some (utf8 "articles.show", [(utf8 "id", utf8 "123")]) ∧
    Router.dispatch routes (getRequest (utf8 "/articles/" ++ utf8 "abc")) =
      Dispatch.notFound :=
  have h := articles_show_route (utf8 "123") (utf8 "abc") (by decide) (by decide) (by decide)
    (by decide) (by decide) (by decide) (by decide) (by decide)
  ⟨h.1, h.2.2.1⟩

end GoBlog
